import Mathlib

/-!
Shallow embedding of the tcplib binary packet codec (package tcplib):
the CustomPacket frame layout, the CustomPacketEncoder over a buffered
writer, and the CustomPacketDecoder. Machine integers are modelled as Nat
with explicit reduction mod 2 ^ w where the Go code truncates or wraps;
byte streams are lists of Nat; fallible reads and writes return Except.
-/

namespace Tcplib

/-- Overhead constant from the source: HeaderLen = 13. -/
def HeaderLen : Nat := 13

/-- Overhead constant from the source: SohLen = 1. -/
def SohLen : Nat := 1

/-- Overhead constant from the source: EohLen = 2 (even though the actual
end sentinel written and read is a single uint8). -/
def EohLen : Nat := 2

/-- The fixed-width header of a frame: Seq uint32, ErrCode uint16,
PacketLen uint32, Version uint8, CheckSum uint16. -/
structure Header where
  Seq : Nat
  ErrCode : Nat
  PacketLen : Nat
  Version : Nat
  CheckSum : Nat
  deriving Repr, DecidableEq

/-- The concrete frame shape: SOH uint8, embedded Header, Body bytes,
EOH uint8. -/
structure CustomPacket where
  SOH : Nat
  toHeader : Header
  Body : List Nat
  EOH : Nat
  deriving Repr, DecidableEq

/-- Promoted field of the embedded Header, as in the Go struct embedding. -/
def CustomPacket.Seq (p : CustomPacket) : Nat := p.toHeader.Seq

/-- Promoted field of the embedded Header. -/
def CustomPacket.ErrCode (p : CustomPacket) : Nat := p.toHeader.ErrCode

/-- Promoted field of the embedded Header. -/
def CustomPacket.PacketLen (p : CustomPacket) : Nat := p.toHeader.PacketLen

/-- Promoted field of the embedded Header. -/
def CustomPacket.Version (p : CustomPacket) : Nat := p.toHeader.Version

/-- Promoted field of the embedded Header. -/
def CustomPacket.CheckSum (p : CustomPacket) : Nat := p.toHeader.CheckSum

/-- Method ID of the Packet interface: returns p.Seq. -/
def CustomPacket.ID (p : CustomPacket) : Nat := p.toHeader.Seq

/-- Method SetErrCode of the Packet interface: p.ErrCode = uint16(code),
a truncating conversion of the uint32 argument, modelled as mod 65536. -/
def CustomPacket.SetErrCode (p : CustomPacket) (code : Nat) : CustomPacket :=
  { p with toHeader := { p.toHeader with ErrCode := code % 65536 } }

/-- A value of the Packet interface type: either the concrete CustomPacket
shape, or any other implementation of the interface. -/
inductive Packet where
  | custom (p : CustomPacket)
  | other (id : Nat)
  deriving Repr, DecidableEq

/-- Whether a Packet dynamic value has the concrete CustomPacket shape,
as tested by the type assertion in Encode. -/
def Packet.isCustomPacket : Packet → Bool
  | .custom _ => true
  | .other _ => false

/-- Big-endian bytes of a uint8 value, as written by binary.Write. -/
def u8Bytes (n : Nat) : List Nat := [n % 256]

/-- Big-endian bytes of a uint16 value, as written by binary.Write. -/
def u16BE (n : Nat) : List Nat := [n / 256 % 256, n % 256]

/-- Big-endian bytes of a uint32 value, as written by binary.Write. -/
def u32BE (n : Nat) : List Nat :=
  [n / 16777216 % 256, n / 65536 % 256, n / 256 % 256, n % 256]

/-- The 13 bytes binary.Write produces for a Header value: the fields in
declared order, each big-endian. -/
def headerBytes (h : Header) : List Nat :=
  u32BE h.Seq ++ u16BE h.ErrCode ++ u32BE h.PacketLen ++
    u8Bytes h.Version ++ u16BE h.CheckSum

/-- State of the bufio.Writer held by a CustomPacketEncoder: the internal
buffer plus the bytes already flushed to the underlying sink. (Capacity-
triggered early flushes are not modelled: they move bytes from buf to sink
without changing the emitted stream sink ++ buf.) -/
structure BufWriter where
  buf : List Nat
  sink : List Nat
  deriving Repr, DecidableEq

/-- A freshly constructed buffered writer on an empty sink. -/
def BufWriter.init : BufWriter := ⟨[], []⟩

/-- One successful binary.Write call: appends bytes to the buffer. -/
def writeBytes (st : BufWriter) (bs : List Nat) : BufWriter :=
  { st with buf := st.buf ++ bs }

/-- CustomPacketEncoder.Encode: type-asserts the argument to a CustomPacket
and writes SOH, the Header, the Body and EOH to the buffer in order;
on an incompatible Packet value it returns an error and writes nothing. -/
def Encode (msg : Packet) (st : BufWriter) : Except String Unit × BufWriter :=
  match msg with
  | .custom packet =>
    let st1 := writeBytes st (u8Bytes packet.SOH)
    let st2 := writeBytes st1 (headerBytes packet.toHeader)
    let st3 := writeBytes st2 (packet.Body.map (fun b => b % 256))
    let st4 := writeBytes st3 (u8Bytes packet.EOH)
    (Except.ok (), st4)
  | .other _ => (Except.error ("SelfPacketEncoder Encode occur error"), st)

/-- CustomPacketEncoder.Flush: moves all buffered bytes to the sink. -/
def Flush (st : BufWriter) : Except String Unit × BufWriter :=
  (Except.ok (), { buf := [], sink := st.sink ++ st.buf })

/-- The byte stream Encode appends to the buffer for one CustomPacket. -/
def encodeBytes (p : CustomPacket) : List Nat :=
  u8Bytes p.SOH ++ headerBytes p.toHeader ++
    p.Body.map (fun b => b % 256) ++ u8Bytes p.EOH

/-- Big-endian value of a byte list, as read by binary.Read. -/
def beToNat (bs : List Nat) : Nat := bs.foldl (fun acc b => acc * 256 + b) 0

/-- One binary.Read call of n bytes from a finite stream: returns the bytes
and the remaining stream, or the read error when the stream is too short. -/
def readN (n : Nat) (s : List Nat) : Except String (List Nat × List Nat) :=
  if n ≤ s.length then Except.ok (s.take n, s.drop n)
  else Except.error ("unexpected EOF")

/-- How binary.Read fills a Header from 13 bytes: fields in declared order,
each big-endian. -/
def parseHeader (bs : List Nat) : Header :=
  { Seq := beToNat (bs.take 4)
    ErrCode := beToNat ((bs.drop 4).take 2)
    PacketLen := beToNat ((bs.drop 6).take 4)
    Version := (bs.drop 10).headD 0
    CheckSum := beToNat ((bs.drop 11).take 2) }

/-- The body length the decoder computes: packet.PacketLen - HeaderLen -
SohLen - EohLen in uint32 arithmetic, which wraps mod 2 ^ 32 when
PacketLen is below the 16-byte overhead. -/
def bodyLenOf (packetLen : Nat) : Nat :=
  (packetLen + 4294967296 - (HeaderLen + SohLen + EohLen)) % 4294967296

/-- CustomPacketDecoder.Decode: reads the SOH byte, the 13 header bytes,
bodyLen computed bytes of body, and the EOH byte; each step propagates its
read error (the Go early returns on err are the Except bind); no sentinel
or checksum validation is performed. -/
def Decode (s : List Nat) : Except String (CustomPacket × List Nat) :=
  (readN 1 s).bind fun r1 =>
    (readN HeaderLen r1.2).bind fun r2 =>
      (readN (bodyLenOf (parseHeader r2.1).PacketLen) r2.2).bind fun r3 =>
        (readN 1 r3.2).bind fun r4 =>
          Except.ok
            ({ SOH := r1.1.headD 0
               toHeader := parseHeader r2.1
               Body := r3.1
               EOH := r4.1.headD 0 }, r4.2)

/-- Range invariants of the machine-integer fields of a Header. -/
def Header.wf (h : Header) : Prop :=
  h.Seq < 4294967296 ∧ h.ErrCode < 65536 ∧ h.PacketLen < 4294967296 ∧
    h.Version < 256 ∧ h.CheckSum < 65536

instance (h : Header) : Decidable h.wf := by
  unfold Header.wf; infer_instance

/-- Range invariants of the machine-integer fields of a CustomPacket. -/
def CustomPacket.wf (p : CustomPacket) : Prop :=
  p.SOH < 256 ∧ p.toHeader.wf ∧ (∀ b ∈ p.Body, b < 256) ∧ p.EOH < 256

instance (p : CustomPacket) : Decidable p.wf := by
  unfold CustomPacket.wf; infer_instance

/-- Sample packet used to instantiate the round-trip theorem. -/
def w1 : CustomPacket := ⟨1, ⟨2, 3, 18, 4, 5⟩, [9, 10], 6⟩

/-- Sample packet used to instantiate the body-length theorem. -/
def w3 : CustomPacket := ⟨1, ⟨100, 0, 21, 1, 0⟩, [104, 101, 108, 108, 111], 2⟩

/-- Sample buffered-writer state used to instantiate the type-mismatch
theorem. -/
def w4st : BufWriter := ⟨[5], [7]⟩

/-- Sample header used to instantiate the sentinel-tolerance theorem. -/
def w6h : Header := ⟨1000, 1, 19, 2, 3⟩

/-- Sample 14-byte stream (SOH plus full header, nothing after) used to
instantiate the truncation theorem. -/
def w7s : List Nat := [1, 0, 0, 0, 9, 0, 1, 0, 0, 0, 30, 1, 0, 2]

/-- Sample packet used to instantiate the checksum-inertness theorem. -/
def w8 : CustomPacket := ⟨2, ⟨11, 0, 20, 1, 7⟩, [10, 20, 30, 40], 3⟩

/-- First sample packet used to instantiate the two-frame theorem. -/
def w9a : CustomPacket := ⟨1, ⟨5, 0, 17, 1, 0⟩, [42], 2⟩

/-- Second sample packet used to instantiate the two-frame theorem. -/
def w9b : CustomPacket := ⟨3, ⟨6, 1, 16, 1, 0⟩, [], 4⟩

/-- Sample packet used to instantiate the SetErrCode theorem. -/
def w10 : CustomPacket := ⟨1, ⟨2, 3, 4, 5, 6⟩, [7], 8⟩

/-- The 13 bytes of a Header serialization. -/
theorem headerBytes_length (h : Header) : (headerBytes h).length = 13 := by
  simp [headerBytes, u32BE, u16BE, u8Bytes]

/-- Reading exactly the length of a prefix returns that prefix. -/
theorem readN_exact (l rest : List Nat) :
    readN l.length (l ++ rest) = Except.ok (l, rest) := by
  unfold readN
  rw [if_pos (by simp)]
  rw [List.take_left, List.drop_left]

/-- Reading one byte from a nonempty stream returns that byte. -/
theorem readN_cons (a : Nat) (t : List Nat) :
    readN 1 (a :: t) = Except.ok ([a], t) := by
  simp [readN]

/-- Bind on a successful Except value applies the continuation. -/
theorem except_bind_ok {α β : Type} (x : α) (f : α → Except String β) :
    (Except.ok x).bind f = f x := rfl

/-- Bind on a failed Except value propagates the error. -/
theorem except_bind_error {α β : Type} (e : String) (f : α → Except String β) :
    (Except.error e).bind f = (Except.error e : Except String β) := rfl

/-- A successful read returns exactly n bytes and consumes them. -/
theorem readN_ok (n : Nat) (s t s2 : List Nat)
    (h : readN n s = Except.ok (t, s2)) :
    t.length = n ∧ s.length = n + s2.length := by
  unfold readN at h
  by_cases hn : n ≤ s.length
  · rw [if_pos hn] at h
    simp only [Except.ok.injEq, Prod.mk.injEq] at h
    obtain ⟨ht, hs⟩ := h
    subst ht
    subst hs
    refine ⟨?_, ?_⟩ <;> simp [List.length_take, List.length_drop] <;> omega
  · rw [if_neg hn] at h
    exact absurd h (by simp)

/-- Big-endian round trip for a uint16 value. -/
theorem beToNat_u16 (n : Nat) (h : n < 65536) : beToNat (u16BE n) = n := by
  simp [beToNat, u16BE]
  omega

/-- Big-endian round trip for a uint32 value. -/
theorem beToNat_u32 (n : Nat) (h : n < 4294967296) : beToNat (u32BE n) = n := by
  simp [beToNat, u32BE]
  omega

/-- Parsing the 13 serialized header bytes recovers the header. -/
theorem parseHeader_headerBytes (h : Header) (hw : h.wf) :
    parseHeader (headerBytes h) = h := by
  obtain ⟨b1, b2, b3, b4, b5⟩ := hw
  cases h with
  | mk seq err pl v ck =>
    simp only [Header.wf] at b1 b2 b3 b4 b5
    simp [parseHeader, headerBytes, u32BE, u16BE, u8Bytes, beToNat,
      Header.mk.injEq]
    refine ⟨?_, ?_, ?_, ?_, ?_⟩ <;> omega

/-- The decoder body-length computation on a consistently set PacketLen. -/
theorem bodyLenOf_consistent (L : Nat) (hL : 16 + L < 4294967296) :
    bodyLenOf (16 + L) = L := by
  unfold bodyLenOf HeaderLen SohLen EohLen
  omega

/-- Reducing bytes mod 256 is the identity on in-range bytes. -/
theorem map_mod_eq_self (l : List Nat) (h : ∀ b ∈ l, b < 256) :
    l.map (fun b => b % 256) = l := by
  induction l with
  | nil => rfl
  | cons a t ih => simp_all [Nat.mod_eq_of_lt]

/-- Reading HeaderLen bytes off a serialized header prefix. -/
theorem readN_header (hd : Header) (rest : List Nat) :
    readN HeaderLen (headerBytes hd ++ rest) = Except.ok (headerBytes hd, rest) := by
  unfold HeaderLen
  rw [← headerBytes_length hd]
  exact readN_exact _ _

/-- Decoding one well-formed frame off the front of a stream returns its
parts verbatim and leaves the rest of the stream. -/
theorem Decode_frame (soh eoh : Nat) (hd : Header) (body rest : List Nat)
    (hw : hd.wf) (hlen : hd.PacketLen = 16 + body.length) :
    Decode (soh :: (headerBytes hd ++ (body ++ eoh :: rest))) =
      Except.ok (⟨soh, hd, body, eoh⟩, rest) := by
  have hb : 16 + body.length < 4294967296 := by
    have h32 := hw.2.2.1
    omega
  unfold Decode
  rw [readN_cons, except_bind_ok, readN_header, except_bind_ok,
    parseHeader_headerBytes hd hw, hlen, bodyLenOf_consistent body.length hb,
    readN_exact, except_bind_ok, readN_cons, except_bind_ok]
  rfl

/-- Encode on a CustomPacket value succeeds and appends exactly the
serialized frame to the buffer. -/
theorem Encode_custom_buf (p : CustomPacket) (st : BufWriter) :
    Encode (Packet.custom p) st =
      (Except.ok (), { st with buf := st.buf ++ encodeBytes p }) := by
  simp [Encode, writeBytes, encodeBytes]

/-- The serialized frame of a well-formed packet, in the cons shape the
frame-decoding lemma expects, with an arbitrary tail appended. -/
theorem encodeBytes_append (p : CustomPacket) (rest : List Nat) (hw : p.wf) :
    encodeBytes p ++ rest =
      p.SOH :: (headerBytes p.toHeader ++ (p.Body ++ p.EOH :: rest)) := by
  obtain ⟨h1, h2, h3, h4⟩ := hw
  simp [encodeBytes, u8Bytes, Nat.mod_eq_of_lt h1, Nat.mod_eq_of_lt h4,
    map_mod_eq_self p.Body h3]

/-- Decoding a stream that starts with one encoded well-formed frame
returns that packet and the tail. -/
theorem Decode_encodeBytes_append (p : CustomPacket) (rest : List Nat)
    (hw : p.wf) (hlen : p.toHeader.PacketLen = 16 + p.Body.length) :
    Decode (encodeBytes p ++ rest) = Except.ok (p, rest) := by
  rw [encodeBytes_append p rest hw]
  rw [Decode_frame p.SOH p.EOH p.toHeader p.Body rest hw.2.1 hlen]

/-- Decoding exactly one encoded well-formed frame. -/
theorem Decode_encodeBytes (p : CustomPacket)
    (hw : p.wf) (hlen : p.toHeader.PacketLen = 16 + p.Body.length) :
    Decode (encodeBytes p) = Except.ok (p, []) := by
  have h := Decode_encodeBytes_append p [] hw hlen
  rwa [List.append_nil] at h

/-- A successful Decode run fixes the returned body length to the computed
bodyLen of the returned PacketLen, and consumes 15 + bodyLen bytes. -/
theorem Decode_ok_shape (s rest : List Nat) (q : CustomPacket)
    (hok : Decode s = Except.ok (q, rest)) :
    q.Body.length = bodyLenOf q.toHeader.PacketLen ∧
      s.length = 15 + q.Body.length + rest.length := by
  unfold Decode at hok
  cases h1 : readN 1 s with
  | error e => rw [h1, except_bind_error] at hok; exact Except.noConfusion hok
  | ok r1 =>
    rw [h1, except_bind_ok] at hok
    cases h2 : readN HeaderLen r1.2 with
    | error e => rw [h2, except_bind_error] at hok; exact Except.noConfusion hok
    | ok r2 =>
      rw [h2, except_bind_ok] at hok
      cases h3 : readN (bodyLenOf (parseHeader r2.1).PacketLen) r2.2 with
      | error e => rw [h3, except_bind_error] at hok; exact Except.noConfusion hok
      | ok r3 =>
        rw [h3, except_bind_ok] at hok
        cases h4 : readN 1 r3.2 with
        | error e => rw [h4, except_bind_error] at hok; exact Except.noConfusion hok
        | ok r4 =>
          rw [h4, except_bind_ok] at hok
          injection hok with h5
          injection h5 with hq hr
          subst hq
          subst hr
          obtain ⟨l1, c1⟩ := readN_ok 1 s r1.1 r1.2 h1
          obtain ⟨l2, c2⟩ := readN_ok HeaderLen r1.2 r2.1 r2.2 h2
          obtain ⟨l3, c3⟩ := readN_ok _ r2.2 r3.1 r3.2 h3
          obtain ⟨l4, c4⟩ := readN_ok 1 r3.2 r4.1 r4.2 h4
          constructor
          · exact l3
          · show s.length = 15 + r3.1.length + r4.2.length
            unfold HeaderLen at c2
            omega

/-- C1: For every CustomPacket value with a body of length L and PacketLen
set consistently with the shared overhead constants (PacketLen = HeaderLen
+ SohLen + EohLen + L = 16 + L), running Decode on the byte stream
produced by Encode followed by Flush returns a packet equal to the
original field-for-field. -/
theorem C1_encode_flush_decode_roundtrip (p : CustomPacket) (hw : p.wf)
    (hlen : p.toHeader.PacketLen = HeaderLen + SohLen + EohLen + p.Body.length) :
    Decode ((Flush (Encode (Packet.custom p) BufWriter.init).2).2.sink) =
      Except.ok (p, []) := by
  rw [Encode_custom_buf]
  show Decode ([] ++ ([] ++ encodeBytes p)) = _
  rw [List.nil_append, List.nil_append]
  exact Decode_encodeBytes p hw (by unfold HeaderLen SohLen EohLen at hlen; omega)

/-- C1 witness at a concrete packet with a 2-byte body and PacketLen 18. -/
theorem C1_encode_flush_decode_roundtrip_witness :
    w1.wf ∧
      w1.toHeader.PacketLen = HeaderLen + SohLen + EohLen + w1.Body.length ∧
      Decode ((Flush (Encode (Packet.custom w1) BufWriter.init).2).2.sink) =
        Except.ok (w1, []) :=
  ⟨by decide, by decide,
    C1_encode_flush_decode_roundtrip w1 (by decide) (by decide)⟩

/-- C2: evidence against the claim. On a header declaring PacketLen = 0
(smaller than the 16-byte fixed overhead) the decoder does not fail fast
with a malformed-length error: the uint32 body-length computation wraps to
4294967280 and Decode goes on to attempt that read, surfacing only the
ordinary read error of the exhausted stream. -/
theorem C2_no_malformed_length_check :
    bodyLenOf 0 = 4294967280 ∧
      Decode [1, 0, 0, 0, 0, 0, 0, 0, 0, 0, 0, 0, 0, 0] =
        Except.error ("unexpected EOF") :=
  ⟨rfl, rfl⟩

/-- C4: Encode on a Packet value that is not of the concrete CustomPacket
shape returns the type-mismatch error and leaves the buffered writer state
unchanged. -/
theorem C4_encode_type_mismatch (msg : Packet) (st : BufWriter)
    (h : msg.isCustomPacket = false) :
    Encode msg st =
      (Except.error ("SelfPacketEncoder Encode occur error"), st) := by
  cases msg with
  | custom q => simp [Packet.isCustomPacket] at h
  | other i => rfl

/-- C4 witness at a concrete non-CustomPacket value and nonempty buffer. -/
theorem C4_encode_type_mismatch_witness :
    (Packet.other 9).isCustomPacket = false ∧
      Encode (Packet.other 9) w4st =
        (Except.error ("SelfPacketEncoder Encode occur error"), w4st) :=
  ⟨rfl, C4_encode_type_mismatch (Packet.other 9) w4st rfl⟩

/-- C5: on a compatible value Encode succeeds, touches only the buffer,
and appends, in strict order and fixed big-endian byte order: the start
sentinel byte, the 4-byte sequence, the 2-byte error code, the 4-byte
frame length, the 1-byte version, the 2-byte checksum, the body bytes
verbatim, and the end sentinel byte. -/
theorem C5_encode_layout (p : CustomPacket) (st : BufWriter) :
    (Encode (Packet.custom p) st).1 = Except.ok () ∧
      (Encode (Packet.custom p) st).2.sink = st.sink ∧
      (Encode (Packet.custom p) st).2.buf =
        st.buf ++
          ([p.SOH % 256] ++
            ([p.toHeader.Seq / 16777216 % 256, p.toHeader.Seq / 65536 % 256,
                p.toHeader.Seq / 256 % 256, p.toHeader.Seq % 256] ++
              ([p.toHeader.ErrCode / 256 % 256, p.toHeader.ErrCode % 256] ++
                ([p.toHeader.PacketLen / 16777216 % 256,
                    p.toHeader.PacketLen / 65536 % 256,
                    p.toHeader.PacketLen / 256 % 256,
                    p.toHeader.PacketLen % 256] ++
                  ([p.toHeader.Version % 256] ++
                    ([p.toHeader.CheckSum / 256 % 256,
                        p.toHeader.CheckSum % 256] ++
                      (p.Body.map (fun b => b % 256) ++
                        [p.EOH % 256]))))))) := by
  refine ⟨rfl, rfl, ?_⟩
  simp [Encode, writeBytes, headerBytes, u32BE, u16BE, u8Bytes]

/-- C6: Decode validates neither sentinel byte: a stream that is
well-formed except for arbitrary sentinel byte values still decodes
successfully, and the sentinel bytes are returned exactly as read. -/
theorem C6_sentinel_tolerance (soh eoh : Nat) (hd : Header) (body : List Nat)
    (hsoh : soh < 256) (heoh : eoh < 256) (hw : hd.wf)
    (hlen : hd.PacketLen = HeaderLen + SohLen + EohLen + body.length) :
    Decode (soh :: (headerBytes hd ++ (body ++ [eoh]))) =
      Except.ok (⟨soh, hd, body, eoh⟩, []) := by
  have h16 : hd.PacketLen = 16 + body.length := by
    unfold HeaderLen SohLen EohLen at hlen
    omega
  exact Decode_frame soh eoh hd body [] hw h16

/-- C6 witness: non-canonical sentinel bytes 170 and 187 around a fixed
header and 3-byte body still decode and are stored as read. -/
theorem C6_sentinel_tolerance_witness :
    170 < 256 ∧ 187 < 256 ∧ w6h.wf ∧
      w6h.PacketLen = HeaderLen + SohLen + EohLen + [5, 6, 7].length ∧
      Decode (170 :: (headerBytes w6h ++ ([5, 6, 7] ++ [187]))) =
        Except.ok (⟨170, w6h, [5, 6, 7], 187⟩, []) :=
  ⟨by decide, by decide, by decide, by decide,
    C6_sentinel_tolerance 170 187 w6h [5, 6, 7] (by decide) (by decide)
      (by decide) (by decide)⟩

/-- C7: on any stream that ends right after the start sentinel and the
13 header bytes, Decode returns the ordinary read error — the same error
kind as any other truncation, never a successful packet. -/
theorem C7_truncated_after_header (s : List Nat) (hlen : s.length = 14) :
    Decode s = Except.error ("unexpected EOF") := by
  have e1 : readN 1 s = Except.ok (s.take 1, s.drop 1) := by
    unfold readN
    rw [if_pos (by omega)]
  have e2 : readN HeaderLen (s.drop 1) =
      Except.ok ((s.drop 1).take 13, (s.drop 1).drop 13) := by
    unfold readN HeaderLen
    rw [if_pos (by rw [List.length_drop]; omega)]
  have e3 : (s.drop 1).drop 13 = [] :=
    List.drop_eq_nil_of_le (by rw [List.length_drop]; omega)
  unfold Decode
  rw [e1, except_bind_ok, e2, except_bind_ok, e3]
  generalize bodyLenOf (parseHeader ((s.drop 1).take 13)).PacketLen = B
  cases B with
  | zero =>
    rw [show readN 0 ([] : List Nat) = Except.ok ([], []) from rfl,
      except_bind_ok,
      show readN 1 ([] : List Nat) = Except.error ("unexpected EOF") from rfl,
      except_bind_error]
  | succ k =>
    rw [show readN (k + 1) ([] : List Nat) =
        Except.error ("unexpected EOF") from rfl,
      except_bind_error]

/-- C7 witness: a concrete 14-byte stream holding one sentinel byte and a
full header whose declared PacketLen is 30. -/
theorem C7_truncated_after_header_witness :
    w7s.length = 14 ∧ Decode w7s = Except.error ("unexpected EOF") :=
  ⟨by decide, C7_truncated_after_header w7s (by decide)⟩

/-- C3: the decoder derives the body length as the declared PacketLen
minus 13 (header) minus 1 (start sentinel) minus the configured 2-byte
end-sentinel constant, that is PacketLen - 16; a frame carrying a body of
L bytes decodes back to the original exactly when its declared PacketLen
equals 16 + L, even though Encode emits only 15 + L bytes on the wire. -/
theorem C3_body_length_derivation (p : CustomPacket) (hw : p.wf)
    (hrep : HeaderLen + SohLen + EohLen + p.Body.length < 4294967296) :
    (∀ pl, 16 ≤ pl → pl < 4294967296 → bodyLenOf pl = pl - 16) ∧
      (Encode (Packet.custom p) BufWriter.init).2.buf.length =
        15 + p.Body.length ∧
      (Decode (encodeBytes p) = Except.ok (p, []) ↔
        p.toHeader.PacketLen = 16 + p.Body.length) := by
  refine ⟨?_, ?_, ?_⟩
  · intro pl hlo hhi
    unfold bodyLenOf HeaderLen SohLen EohLen
    omega
  · rw [Encode_custom_buf]
    show ([] ++ encodeBytes p).length = 15 + p.Body.length
    rw [List.nil_append]
    simp [encodeBytes, u8Bytes, headerBytes, u32BE, u16BE]
    omega
  · constructor
    · intro hok
      obtain ⟨e1, _⟩ := Decode_ok_shape (encodeBytes p) [] p hok
      have h32 : p.toHeader.PacketLen < 4294967296 := hw.2.1.2.2.1
      unfold HeaderLen SohLen EohLen at hrep
      unfold bodyLenOf HeaderLen SohLen EohLen at e1
      omega
    · intro hpl
      exact Decode_encodeBytes p hw hpl

/-- C3 witness at a concrete packet with a 5-byte body and PacketLen 21. -/
theorem C3_body_length_derivation_witness :
    w3.wf ∧ HeaderLen + SohLen + EohLen + w3.Body.length < 4294967296 ∧
      ((∀ pl, 16 ≤ pl → pl < 4294967296 → bodyLenOf pl = pl - 16) ∧
        (Encode (Packet.custom w3) BufWriter.init).2.buf.length =
          15 + w3.Body.length ∧
        (Decode (encodeBytes w3) = Except.ok (w3, []) ↔
          w3.toHeader.PacketLen = 16 + w3.Body.length)) :=
  ⟨by decide, by decide, C3_body_length_derivation w3 (by decide) (by decide)⟩

/-- C8: no checksum is verified on decode: corrupting the single body byte
at offset i of an encoded frame still decodes successfully, returning the
packet with exactly that corrupted body byte and no error. -/
theorem C8_checksum_inert (p : CustomPacket) (i c : Nat) (hw : p.wf)
    (hlen : p.toHeader.PacketLen = HeaderLen + SohLen + EohLen + p.Body.length)
    (hi : i < p.Body.length) (hc : c < 256) :
    Decode ((Encode (Packet.custom p) BufWriter.init).2.buf.set
        (SohLen + HeaderLen + i) c) =
      Except.ok ({ p with Body := p.Body.set i c }, []) := by
  have h16 : p.toHeader.PacketLen = 16 + p.Body.length := by
    unfold HeaderLen SohLen EohLen at hlen
    omega
  obtain ⟨h1, h2, h3, h4⟩ := hw
  have eb : encodeBytes p =
      p.SOH :: (headerBytes p.toHeader ++ (p.Body ++ [p.EOH])) := by
    have h := encodeBytes_append p [] ⟨h1, h2, h3, h4⟩
    rwa [List.append_nil] at h
  rw [Encode_custom_buf]
  show Decode (([] ++ encodeBytes p).set (SohLen + HeaderLen + i) c) = _
  rw [List.nil_append, eb]
  rw [show p.SOH :: (headerBytes p.toHeader ++ (p.Body ++ [p.EOH])) =
      (p.SOH :: headerBytes p.toHeader) ++ (p.Body ++ [p.EOH]) from rfl]
  rw [List.set_append_right _ _
    (by simp [headerBytes_length]; unfold SohLen HeaderLen; omega)]
  rw [show SohLen + HeaderLen + i - (p.SOH :: headerBytes p.toHeader).length = i
    from by simp [headerBytes_length]; unfold SohLen HeaderLen; omega]
  rw [List.set_append_left _ _ hi]
  rw [show (p.SOH :: headerBytes p.toHeader) ++ (p.Body.set i c ++ [p.EOH]) =
      p.SOH :: (headerBytes p.toHeader ++ (p.Body.set i c ++ p.EOH :: []))
    from rfl]
  rw [Decode_frame p.SOH p.EOH p.toHeader (p.Body.set i c) [] h2
    (by rw [List.length_set]; exact h16)]

/-- C8 witness: corrupting body offset 2 of a 4-byte body to 99. -/
theorem C8_checksum_inert_witness :
    w8.wf ∧ w8.toHeader.PacketLen = HeaderLen + SohLen + EohLen + w8.Body.length ∧
      2 < w8.Body.length ∧ 99 < 256 ∧
      Decode ((Encode (Packet.custom w8) BufWriter.init).2.buf.set
          (SohLen + HeaderLen + 2) 99) =
        Except.ok ({ w8 with Body := w8.Body.set 2 99 }, []) :=
  ⟨by decide, by decide, by decide, by decide,
    C8_checksum_inert w8 2 99 (by decide) (by decide) (by decide) (by decide)⟩

/-- C9: encoding p1, flushing, encoding p2 and flushing produces one byte
stream from which two successive Decode calls return p1 and then p2, each
field-for-field. -/
theorem C9_two_frames_roundtrip (p1 p2 : CustomPacket) (hw1 : p1.wf)
    (hw2 : p2.wf)
    (hl1 : p1.toHeader.PacketLen = HeaderLen + SohLen + EohLen + p1.Body.length)
    (hl2 : p2.toHeader.PacketLen = HeaderLen + SohLen + EohLen + p2.Body.length) :
    ∃ rest,
      Decode ((Flush (Encode (Packet.custom p2)
            ((Flush (Encode (Packet.custom p1) BufWriter.init).2).2)).2).2.sink) =
          Except.ok (p1, rest) ∧
        Decode rest = Except.ok (p2, []) := by
  refine ⟨encodeBytes p2, ?_, ?_⟩
  · have hs : (Flush (Encode (Packet.custom p2)
          ((Flush (Encode (Packet.custom p1) BufWriter.init).2).2)).2).2.sink =
        encodeBytes p1 ++ encodeBytes p2 := by
      rw [Encode_custom_buf p1 BufWriter.init]
      rw [Encode_custom_buf p2]
      show ([] ++ ([] ++ encodeBytes p1)) ++ ([] ++ encodeBytes p2) =
        encodeBytes p1 ++ encodeBytes p2
      rw [List.nil_append, List.nil_append, List.nil_append]
    rw [hs]
    exact Decode_encodeBytes_append p1 (encodeBytes p2) hw1
      (by unfold HeaderLen SohLen EohLen at hl1; omega)
  · exact Decode_encodeBytes p2 hw2
      (by unfold HeaderLen SohLen EohLen at hl2; omega)

/-- C9 witness at two concrete packets, one with a 1-byte body and one
with an empty body. -/
theorem C9_two_frames_roundtrip_witness :
    w9a.wf ∧ w9b.wf ∧
      w9a.toHeader.PacketLen = HeaderLen + SohLen + EohLen + w9a.Body.length ∧
      w9b.toHeader.PacketLen = HeaderLen + SohLen + EohLen + w9b.Body.length ∧
      ∃ rest,
        Decode ((Flush (Encode (Packet.custom w9b)
              ((Flush (Encode (Packet.custom w9a) BufWriter.init).2).2)).2).2.sink) =
            Except.ok (w9a, rest) ∧
          Decode rest = Except.ok (w9b, []) :=
  ⟨by decide, by decide, by decide, by decide,
    C9_two_frames_roundtrip w9a w9b (by decide) (by decide) (by decide)
      (by decide)⟩

/-- C10: SetErrCode stores a uint32 code into the 16-bit ErrCode field by
truncation mod 65536 and changes no other field. -/
theorem C10_seterrcode_truncates (p : CustomPacket) (code : Nat)
    (hcode : code < 4294967296) :
    (p.SetErrCode code).toHeader.ErrCode = code % 65536 ∧
      (p.SetErrCode code).SOH = p.SOH ∧
      (p.SetErrCode code).toHeader.Seq = p.toHeader.Seq ∧
      (p.SetErrCode code).toHeader.PacketLen = p.toHeader.PacketLen ∧
      (p.SetErrCode code).toHeader.Version = p.toHeader.Version ∧
      (p.SetErrCode code).toHeader.CheckSum = p.toHeader.CheckSum ∧
      (p.SetErrCode code).Body = p.Body ∧
      (p.SetErrCode code).EOH = p.EOH :=
  ⟨rfl, rfl, rfl, rfl, rfl, rfl, rfl, rfl⟩

/-- C10 witness at a concrete packet and code 70000, whose low 16 bits
are 4464. -/
theorem C10_seterrcode_truncates_witness :
    70000 < 4294967296 ∧
      ((w10.SetErrCode 70000).toHeader.ErrCode = 70000 % 65536 ∧
        (w10.SetErrCode 70000).SOH = w10.SOH ∧
        (w10.SetErrCode 70000).toHeader.Seq = w10.toHeader.Seq ∧
        (w10.SetErrCode 70000).toHeader.PacketLen = w10.toHeader.PacketLen ∧
        (w10.SetErrCode 70000).toHeader.Version = w10.toHeader.Version ∧
        (w10.SetErrCode 70000).toHeader.CheckSum = w10.toHeader.CheckSum ∧
        (w10.SetErrCode 70000).Body = w10.Body ∧
        (w10.SetErrCode 70000).EOH = w10.EOH) :=
  ⟨by decide, C10_seterrcode_truncates w10 70000 (by decide)⟩

end Tcplib
